import Mathlib

/-!
# Text-classification endpoint: request handler and verdict helpers

A shallow embedding of `src/app/api/analyze/route.js` (the `POST` handler) and of the
pure helpers of `src/app/page.js` (`getTopResult`, `getFinalVerdict`).

Modelling conventions:

* a JavaScript string is its sequence of UTF-16 code units, so `.length` is `List.length`;
* a JavaScript number is `NaN`, an infinity, or the rational value of a finite binary64
  number; a product is rounded to binary64 (`roundBinary64`: round to nearest, ties to
  even, overflow to an infinity, gradual underflow); the sign of zero is not modelled;
* a JavaScript value built from JSON is a `Value`; a property read that yields
  `undefined` is `none`;
* an expression that throws inside the handler's `try` block is `none` in the `Option`
  monad, and the `catch` block turns it into the generic 500 response;
* `console.*` calls and `performance.now()` have no effect on the response and are left out;
* `NextResponse.json(body, { status })` with one of the literal statuses of the handler
  (200, 400, 410, 500, 503) is a constructor of a `Response` value; with a status taken
  from the upstream response it is `jsonResponse`, which throws where `Response.json`
  throws;
* `Array.prototype.sort` is the stable sort that ECMAScript prescribes for a consistent
  comparator; it is realised as an insertion sort.
-/

namespace HateSpeech

/-! ## Strings -/

/-- A JavaScript string: the list of its UTF-16 code units. -/
abbrev JsString := List Nat

/-- The UTF-16 code units of one Unicode scalar value. -/
def utf16Char (c : Char) : List Nat :=
  if c.toNat < 65536 then [c.toNat]
  else [55296 + (c.toNat - 65536) / 1024, 56320 + (c.toNat - 65536) % 1024]

/-- The JavaScript string denoted by a source literal. -/
def utf16 (s : String) : JsString :=
  (s.data.map utf16Char).flatten

/-- The decimal digits of a natural number, least significant digit first. -/
def digitsRev : Nat → Nat → List Nat
  | 0, _ => []
  | fuel + 1, n => (48 + n % 10) :: (if n / 10 = 0 then [] else digitsRev fuel (n / 10))

/-- The string form of a non-negative integer, as produced by a template literal or by
an array index used as a property key. -/
def natToJsString (n : Nat) : JsString :=
  (digitsRev (n + 1) n).reverse

/-! ## Numbers -/

/-- A JavaScript number. -/
inductive JsNum where
  | nan : JsNum
  | ninf : JsNum
  | val (q : ℚ) : JsNum
  | pinf : JsNum
  deriving DecidableEq

/-- A binary64 value other than `NaN`, on the extended rational line: the bottom is
`-Infinity`, the top is `Infinity`. -/
abbrev Extended := WithBot (WithTop ℚ)

/-- The number that an extended rational stands for. -/
def Extended.toJsNum : Extended → JsNum
  | none => JsNum.ninf
  | some none => JsNum.pinf
  | some (some q) => JsNum.val q

/-- The power `2 ^ k` for an integer `k`. -/
def twoPow (k : ℤ) : ℚ :=
  if 0 ≤ k then ((2 ^ k.toNat : ℕ) : ℚ) else 1 / ((2 ^ (-k).toNat : ℕ) : ℚ)

/-- The number of binary digits of `n`; the first argument bounds the recursion. -/
def bitLength : Nat → Nat → Nat
  | 0, _ => 0
  | fuel + 1, n => if n = 0 then 0 else bitLength fuel (n / 2) + 1

/-- The binary exponent of a non-zero rational `q`: the integer `k` with
`2 ^ k ≤ |q| < 2 ^ (k + 1)`. -/
def floorLog2 (q : ℚ) : ℤ :=
  let k : ℤ := (bitLength q.num.natAbs q.num.natAbs : ℤ) - (bitLength q.den q.den : ℤ)
  if twoPow k ≤ |q| then k else k - 1

/-- The integer nearest to `x`, the even one of the two when `x` lies halfway. -/
def roundHalfEven (x : ℚ) : ℤ :=
  let f := Rat.floor x
  let r := x - f
  if r < 1 / 2 then f else if 1 / 2 < r then f + 1 else if f % 2 = 0 then f else f + 1

/-- The binary64 number nearest to the rational `q` (IEEE 754 round to nearest, ties to
even): 53 significant bits, exponents from -1022 to 1023 with gradual underflow below,
and an infinity when the rounded magnitude reaches `2 ^ 1024`. -/
def roundBinary64 (q : ℚ) : Extended :=
  if q = 0 then ((0 : ℚ) : WithTop ℚ)
  else
    let e := max (floorLog2 q) (-1022)
    let ulp := twoPow (e - 52)
    let r := (roundHalfEven (|q| / ulp) : ℚ) * ulp
    if twoPow 1024 ≤ r then (if 0 < q then ((⊤ : WithTop ℚ) : Extended) else ⊥)
    else (((if 0 < q then r else -r : ℚ) : WithTop ℚ) : Extended)

namespace JsNum

/-- The `*` operator on numbers: the exact product of two finite numbers is rounded to
binary64. -/
def mul : JsNum → JsNum → JsNum
  | nan, _ => nan
  | _, nan => nan
  | val a, val b => (roundBinary64 (a * b)).toJsNum
  | pinf, val b => if 0 < b then pinf else if b < 0 then ninf else nan
  | val b, pinf => if 0 < b then pinf else if b < 0 then ninf else nan
  | ninf, val b => if 0 < b then ninf else if b < 0 then pinf else nan
  | val b, ninf => if 0 < b then ninf else if b < 0 then pinf else nan
  | pinf, pinf => pinf
  | ninf, ninf => pinf
  | pinf, ninf => ninf
  | ninf, pinf => ninf

/-- The `-` operator on numbers. The difference of two finite numbers is left exact: the
handler uses it only through its sign, which the binary64 difference of two binary64
numbers shares with the exact one. -/
def sub : JsNum → JsNum → JsNum
  | nan, _ => nan
  | _, nan => nan
  | val a, val b => val (a - b)
  | pinf, pinf => nan
  | ninf, ninf => nan
  | pinf, _ => pinf
  | ninf, _ => ninf
  | val _, pinf => ninf
  | val _, ninf => pinf

/-- Whether a number is strictly positive; `NaN` is not. -/
def isPos : JsNum → Bool
  | pinf => true
  | val q => decide (0 < q)
  | _ => false

/-- Truthiness of a number: every number but `0` and `NaN`. -/
def truthy : JsNum → Bool
  | nan => false
  | val q => decide (q ≠ 0)
  | _ => true

end JsNum

/-! ## Values -/

/-- A JavaScript value as built from JSON data: `null`, a boolean, a number, a string, an
array, or a plain object given by its own properties in order. -/
inductive Value where
  | null : Value
  | bool (b : Bool) : Value
  | num (n : JsNum) : Value
  | str (s : JsString) : Value
  | arr (xs : List Value) : Value
  | obj (props : List (JsString × Value)) : Value

/-- The value of the own property `key` of a property list, `none` when there is none. -/
def lookup (key : JsString) : List (JsString × Value) → Option Value
  | [] => none
  | (k, v) :: rest => if k = key then some v else lookup key rest

/-- Assignment of the own property `key`: an existing property keeps its place and takes
the new value, a new property is added at the end. -/
def setField (key : JsString) (v : Value) : List (JsString × Value) → List (JsString × Value)
  | [] => [(key, v)]
  | (k, w) :: rest => if k = key then (k, v) :: rest else (k, w) :: setField key v rest

/-- The entries of a list under their indices as property keys, starting at index `i`. -/
def indexed (i : Nat) : List Value → List (JsString × Value)
  | [] => []
  | v :: vs => (natToJsString i, v) :: indexed (i + 1) vs

namespace Value

/-- A read of a property that none of the built-in prototypes defines (`text`, `score`):
the own property of an object, `undefined` on every other value that can be read from.
The caller handles `null`, on which the read throws. -/
def get (key : JsString) : Value → Option Value
  | obj props => lookup key props
  | _ => none

/-- Truthiness of a value (ECMAScript `ToBoolean`). -/
def truthy : Value → Bool
  | null => false
  | bool b => b
  | num n => n.truthy
  | str s => !s.isEmpty
  | arr _ => true
  | obj _ => true

/-- Whether `typeof v === "string"`. -/
def isString : Value → Bool
  | str _ => true
  | _ => false

/-- Whether `Array.isArray(v)`. -/
def isArray : Value → Bool
  | arr _ => true
  | _ => false

/-- The own enumerable properties that object spread `{...v}` copies. -/
def spread : Value → List (JsString × Value)
  | obj props => props
  | arr xs => indexed 0 xs
  | str s => indexed 0 (s.map fun u => str [u])
  | _ => []

end Value

/-- Truthiness of a possibly `undefined` value. -/
def truthyOpt : Option Value → Bool
  | none => false
  | some v => v.truthy

/-- Whether `typeof v === "string"` for a possibly `undefined` value. -/
def isStringOpt : Option Value → Bool
  | none => false
  | some v => v.isString

/-- ECMAScript `ToNumber` on a possibly `undefined` value. On strings, arrays and objects
the conversion goes through the language's string grammar and `ToPrimitive`; it is taken
as the parameter `coerce`, whose result `none` stands for a thrown `TypeError`. -/
def toNumber (coerce : Value → Option JsNum) : Option Value → Option JsNum
  | none => some JsNum.nan
  | some Value.null => some (JsNum.val 0)
  | some (Value.bool true) => some (JsNum.val 1)
  | some (Value.bool false) => some (JsNum.val 0)
  | some (Value.num n) => some n
  | some v => coerce v

/-! ## Sorting -/

/-- One insertion step of the sort: `a` is placed before the first element that the
comparator does not order ahead of it (`cmp a b > 0` means that `b` comes first). -/
def insertSorted {α : Type} (cmp : α → α → JsNum) (a : α) : List α → List α
  | [] => [a]
  | b :: bs => if (cmp a b).isPos then b :: insertSorted cmp a bs else a :: b :: bs

/-- The result of `[...xs].sort(cmp)`: a stable sort by the comparator `cmp`, where a
comparator result of `NaN` counts as `0`. -/
def jsSort {α : Type} (cmp : α → α → JsNum) : List α → List α
  | [] => []
  | a :: as => insertSorted cmp a (jsSort cmp as)

/-! ## The route handler `POST` of `src/app/api/analyze/route.js` -/

/-- The body handed to `NextResponse.json`. -/
inductive Body where
  | error (error : JsString) (details : Option JsString) : Body
  | success (results : List Value) (model : JsString) (timestamp : JsString) : Body

/-- A response of the handler. -/
structure Response where
  status : Nat
  body : Body

/-- The response of the upstream inference service as the handler reads it: the status
line, the body read as text (`response.text()`), and the body read as JSON
(`response.json()`, `none` when that throws). -/
structure Upstream where
  status : Nat
  statusText : JsString
  text : JsString
  json : Option Value

/-- The `response.ok` flag: the status is in the range 200 to 299. -/
def Upstream.ok (r : Upstream) : Bool :=
  decide (200 ≤ r.status) && decide (r.status ≤ 299)

/-- What the handler takes from its surroundings: the configured token
(`process.env.NEXT_PUBLIC_HF_TOKEN`, `none` when unset), the outbound call `fetch` as a
function of the URL, the `Authorization` header and the JSON payload (`none` when the call
rejects), the current time in ISO-8601 form, and the number conversion of `toNumber`. -/
structure Env where
  token : Option JsString
  fetch : JsString → JsString → Value → Option Upstream
  now : JsString
  coerce : Value → Option JsNum

/-- The property key `score`. -/
def kScore : JsString := utf16 "score"

/-- The property key `label`. -/
def kLabel : JsString := utf16 "label"

/-- The property key `text`. -/
def kText : JsString := utf16 "text"

/-- The constant `model`. -/
def model : JsString := utf16 "ProsusAI/finbert"

/-- The constant `apiUrl`. -/
def apiUrl : JsString := utf16 "https://router.huggingface.co/hf-inference/models/" ++ model

/-- The object `payload` sent upstream. -/
def payload (text : JsString) : Value :=
  Value.obj [(utf16 "inputs", Value.str text),
    (utf16 "options", Value.obj [(utf16 "wait_for_model", Value.bool true)])]

/-- The `Authorization` header: the template literal prints an unset token as
`undefined`. -/
def authorization (token : Option JsString) : JsString :=
  utf16 "Bearer " ++ token.getD (utf16 "undefined")

/-- The 400 response for a missing, empty or non-string `text`. -/
def invalidText : Response :=
  ⟨400, Body.error (utf16 "Text is required and must be a string") none⟩

/-- The 400 response for a `text` of more than 5000 code units. -/
def tooLong : Response :=
  ⟨400, Body.error (utf16 "Text exceeds maximum length of 5000 characters") none⟩

/-- The 503 response for an upstream status 503. -/
def modelLoading : Response :=
  ⟨503, Body.error (utf16 "Model is loading. Please try again in a moment.") none⟩

/-- The 410 response for an upstream status 410. -/
def modelUnavailable : Response :=
  ⟨410, Body.error
    (utf16 "This model is no longer available. Please update the model name in the API route.")
    (some (utf16
      "Edit app/api/analyze/route.js and try: \"cardiffnlp/twitter-roberta-base-hate-latest\""))⟩

/-- The response for an upstream status 401 or 403; the status is passed on. -/
def authenticationFailed (status : Nat) : Response :=
  ⟨status, Body.error
    (utf16 "Authentication failed. Please check your Hugging Face API token.") none⟩

/-- The response for any other upstream failure: the status is passed on and the raw
upstream body text goes into `details`. -/
def upstreamError (r : Upstream) : Response :=
  ⟨r.status, Body.error
    (utf16 "API error (" ++ natToJsString r.status ++ utf16 "): " ++ r.statusText)
    (some r.text)⟩

/-- The 500 response of the `catch` block. -/
def internalError : Response :=
  ⟨500, Body.error (utf16 "An unexpected error occurred. Please try again.") none⟩

/-- The call `NextResponse.json(body, { status })` with a status that is not a literal.
It builds on `Response.json`, which throws a `RangeError` for a status outside 200 to
599 and a `TypeError` for a null-body status (204, 205, 304) given with a body; `none`
stands for the throw. The argument is the response that is built otherwise. -/
def jsonResponse (r : Response) : Option Response :=
  if 200 ≤ r.status ∧ r.status ≤ 599 ∧ r.status ≠ 204 ∧ r.status ≠ 205 ∧ r.status ≠ 304
  then some r else none

/-- The branch `if (!response.ok)`: the response for a failed upstream call; `none`
stands for a thrown exception. -/
def errorResponse (r : Upstream) : Option Response :=
  if r.status = 503 then some modelLoading
  else if r.status = 410 then some modelUnavailable
  else if r.status = 401 ∨ r.status = 403 then jsonResponse (authenticationFailed r.status)
  else jsonResponse (upstreamError r)

/-- The flattening step: when `data` is an array whose first element is an array, that
first element is taken; otherwise `data` itself. -/
def unwrap (data : Value) : Value :=
  match data with
  | Value.arr (Value.arr ys :: _) => Value.arr ys
  | _ => data

/-- The callback of `results.map`: `{ ...item, score: item.score * 100 }`. Reading
`item.score` throws on `null`. -/
def toPercentage (coerce : Value → Option JsNum) (item : Value) : Option Value :=
  match item with
  | Value.null => none
  | _ =>
    match toNumber coerce (item.get kScore) with
    | none => none
    | some n => some (Value.obj (setField kScore (Value.num (n.mul (JsNum.val 100))) item.spread))

/-- The array method `map` with a callback that may throw. -/
def mapItems (f : Value → Option Value) : List Value → Option (List Value)
  | [] => some []
  | x :: xs =>
    match f x with
    | none => none
    | some y =>
      match mapItems f xs with
      | none => none
      | some ys => some (y :: ys)

/-- The call `results.map(...)`: it throws unless `results` is an array. -/
def resultsWithPercentages (coerce : Value → Option JsNum) (results : Value) :
    Option (List Value) :=
  match results with
  | Value.arr xs => mapItems (toPercentage coerce) xs
  | _ => none

/-- The `score` of an element of `resultsWithPercentages`. Every such element is an
object whose `score` is a number (see `toPercentage_score`). -/
def scoreOf (v : Value) : JsNum :=
  match v.get kScore with
  | some (Value.num n) => n
  | _ => JsNum.nan

/-- The comparator `(a, b) => b.score - a.score` on the rescaled elements. -/
def compareScore (a b : Value) : JsNum :=
  (scoreOf b).sub (scoreOf a)

/-- The handler from the upstream response on (everything after `fetch` returns);
`none` stands for a thrown exception. -/
def respond (env : Env) (response : Upstream) : Option Response :=
  if !response.ok then errorResponse response
  else
    match response.json with
    | none => none
    | some data =>
      match resultsWithPercentages env.coerce (unwrap data) with
      | none => none
      | some pct => some ⟨200, Body.success (jsSort compareScore pct) model env.now⟩

/-- The outcome of the validation block at the head of the handler. -/
inductive Validation where
  | thrown : Validation
  | rejected (response : Response) : Validation
  | accepted (text : JsString) : Validation

/-- The head of the `try` block: `const { text } = await request.json()` and the two
validation checks. The argument is the result of `request.json()`, `none` when that
throws; destructuring `null` throws as well. The last case of the inner `match` does not
arise: a `text` that passes the first check is a string. -/
def validate (request : Option Value) : Validation :=
  match request with
  | none => Validation.thrown
  | some Value.null => Validation.thrown
  | some body =>
    let text := body.get kText
    if !truthyOpt text || !isStringOpt text then Validation.rejected invalidText
    else
      match text with
      | some (Value.str s) =>
        if s.length > 5000 then Validation.rejected tooLong else Validation.accepted s
      | _ => Validation.thrown

/-- The body of the `try` block; `none` stands for a thrown exception. -/
def tryPOST (env : Env) (request : Option Value) : Option Response :=
  match validate request with
  | Validation.thrown => none
  | Validation.rejected response => some response
  | Validation.accepted text =>
    match env.fetch apiUrl (authorization env.token) (payload text) with
    | none => none
    | some response => respond env response

/-- The route handler: the `try` block, with the `catch` block's generic 500 response for
anything thrown. -/
def POST (env : Env) (request : Option Value) : Response :=
  (tryPOST env request).getD internalError

/-! ## The helpers of `src/app/page.js` -/

/-- An entry of `result.results` as the page receives it. -/
structure Item where
  label : JsString
  score : ℚ
  deriving DecidableEq

/-- The JavaScript object of an item. -/
def Item.toValue (it : Item) : Value :=
  Value.obj [(kLabel, Value.str it.label), (kScore, Value.num (JsNum.val it.score))]

/-- The comparator `(a, b) => b.score - a.score` on items. -/
def compareItems (a b : Item) : JsNum :=
  (JsNum.val b.score).sub (JsNum.val a.score)

/-- The descending sort by score that both files apply to the result list. -/
def rank (xs : List Item) : List Item :=
  jsSort compareItems xs

/-- The helper `getTopResult`; the argument `none` is an absent `results`. -/
def getTopResult (results : Option (List Item)) : Option Item :=
  match results with
  | none => none
  | some rs => if rs.length = 0 then none else (rank rs).head?

/-- The lower-case form of an ASCII code unit; other code units are unchanged. -/
def lowerUnit (u : Nat) : Nat :=
  if 65 ≤ u ∧ u ≤ 90 then u + 32 else u

/-- The method `toLowerCase` on the ASCII range. No character outside that range
lower-cases to a letter of `negative` or `positive`, so the comparisons of
`getFinalVerdict` come out the same as with the full Unicode mapping. -/
def toLowerCase (s : JsString) : JsString :=
  s.map lowerUnit

/-- The helper `getFinalVerdict`. -/
def getFinalVerdict (label : JsString) : JsString :=
  let l := toLowerCase label
  if l = utf16 "negative" then utf16 "Hate Speech"
  else if l = utf16 "positive" then utf16 "No Hate"
  else utf16 "Neutral"

/-! ## Vocabulary of the specification -/

/-- An entry of the handler's `results`: a label and a score that is a binary64 value
other than `NaN`. -/
structure Scored where
  label : JsString
  score : Extended
  deriving DecidableEq

/-- An item with its score multiplied by 100 in binary64 and its label unchanged. -/
def Item.rescale (it : Item) : Scored :=
  ⟨it.label, roundBinary64 (it.score * 100)⟩

/-- The JavaScript object of a result entry. -/
def Scored.toValue (e : Scored) : Value :=
  Value.obj [(kLabel, Value.str e.label), (kScore, Value.num e.score.toJsNum)]

/-- The comparator `(a, b) => b.score - a.score` on result entries. -/
def compareScored (a b : Scored) : JsNum :=
  b.score.toJsNum.sub a.score.toJsNum

/-- The descending sort by score of the handler on result entries. -/
def rankScored (xs : List Scored) : List Scored :=
  jsSort compareScored xs

/-- The value `v` is an object whose `label` and `score` are those of the result entry
`e`; further properties of the object are left open. -/
def Carries (v : Value) (e : Scored) : Prop :=
  ∃ props, v = Value.obj props ∧ lookup kLabel props = some (Value.str e.label)
    ∧ lookup kScore props = some (Value.num e.score.toJsNum)

/-- The order that the handler's ranking establishes: no later entry has a larger
score. -/
def DescendingScored (xs : List Scored) : Prop :=
  xs.Pairwise fun a b => b.score ≤ a.score

/-- The value `v` is an object whose `label` and `score` are those of the item `it`;
further properties of the object are left open. -/
def Represents (v : Value) (it : Item) : Prop :=
  ∃ props, v = Value.obj props ∧ lookup kLabel props = some (Value.str it.label)
    ∧ lookup kScore props = some (Value.num (JsNum.val it.score))

/-- The order that ranking establishes: no later item has a larger score. -/
def Descending (xs : List Item) : Prop :=
  xs.Pairwise fun a b => b.score ≤ a.score

/-- Equality up to ASCII letter case with a lower-case word: each code unit is the
letter of the word at that place or its upper-case form, which lies 32 below it. -/
def MatchesIgnoringCase (label word : JsString) : Prop :=
  List.Forall₂ (fun u c => u = c ∨ u + 32 = c) label word

/-- The error kinds that the specification gives to a failed upstream call. -/
inductive ErrorKind where
  | modelLoading : ErrorKind
  | modelUnavailable : ErrorKind
  | authenticationFailed : ErrorKind
  | upstreamError : ErrorKind
  deriving DecidableEq

/-- The mapping of the specification from a non-success upstream status to an error kind:
503 is model loading, 410 is model unavailable, 401 and 403 are authentication failures,
anything else is an upstream error. -/
def specKind (status : Nat) : ErrorKind :=
  if status = 503 then ErrorKind.modelLoading
  else if status = 410 then ErrorKind.modelUnavailable
  else if status = 401 ∨ status = 403 then ErrorKind.authenticationFailed
  else ErrorKind.upstreamError

/-- The response by which the handler reports an error kind for an upstream response. -/
def kindResponse (kind : ErrorKind) (r : Upstream) : Response :=
  match kind with
  | ErrorKind.modelLoading => modelLoading
  | ErrorKind.modelUnavailable => modelUnavailable
  | ErrorKind.authenticationFailed => authenticationFailed r.status
  | ErrorKind.upstreamError => upstreamError r

/-! ## Sample data -/

/-- An upstream response with status 200 and the given JSON body. -/
def sampleUpstream (data : Value) : Upstream :=
  ⟨200, utf16 "OK", [], some data⟩

/-- Surroundings in which every outbound call returns the given upstream response. -/
def sampleEnv (up : Upstream) : Env :=
  ⟨some (utf16 "hf_token"), fun _ _ _ => some up, utf16 "2025-01-01T00:00:00.000Z",
    fun _ => none⟩

/-- The request body with the text `I hate you`. -/
def sampleRequest : Option Value :=
  some (Value.obj [(kText, Value.str (utf16 "I hate you"))])

/-- The upstream items `positive` at 0.2 and `negative` at 0.7, each score with the
binary64 value of its decimal literal (see `sample_scores_binary64`). -/
def sampleItems : List Item :=
  [⟨utf16 "positive", 3602879701896397 / 18014398509481984⟩,
    ⟨utf16 "negative", 3152519739159347 / 4503599627370496⟩]

/-- Two upstream items whose scores are the adjacent binary64 values of the literals
0.35 and 0.35000000000000003; both products with 100 round to 35. -/
def tiedItems : List Item :=
  [⟨utf16 "a", 3152519739159347 / 9007199254740992⟩,
    ⟨utf16 "b", 6305039478318695 / 18014398509481984⟩]

/-- The single upstream item `neutral` at 0.5. -/
def neutralItems : List Item :=
  [⟨utf16 "neutral", 1 / 2⟩]

/-- An upstream failure with status 404. -/
def sampleNotFound : Upstream :=
  ⟨404, utf16 "Not Found", utf16 "no such model", none⟩

/-- An upstream answer with the null-body status 304. -/
def sampleNotModified : Upstream :=
  ⟨304, utf16 "Not Modified", [], none⟩

/-- An upstream answer with a status above 599. -/
def sampleOutOfRange : Upstream :=
  ⟨600, utf16 "Unknown", utf16 "failure", none⟩

/-! ## Properties of the sort -/

theorem insertSorted_perm {α : Type} (cmp : α → α → JsNum) (a : α) :
    ∀ l : List α, (insertSorted cmp a l).Perm (a :: l)
  | [] => List.Perm.refl _
  | b :: bs => by
    unfold insertSorted
    split
    · exact ((insertSorted_perm cmp a bs).cons b).trans (List.Perm.swap a b bs)
    · exact List.Perm.refl _

theorem jsSort_perm {α : Type} (cmp : α → α → JsNum) :
    ∀ l : List α, (jsSort cmp l).Perm l
  | [] => List.Perm.refl _
  | a :: as => by
    unfold jsSort
    exact (insertSorted_perm cmp a _).trans ((jsSort_perm cmp as).cons a)

theorem insertSorted_map {α β : Type} (f : α → β) (cmpA : α → α → JsNum)
    (cmpB : β → β → JsNum) (h : ∀ a b, cmpB (f a) (f b) = cmpA a b) (a : α) :
    ∀ l : List α, insertSorted cmpB (f a) (l.map f) = (insertSorted cmpA a l).map f
  | [] => rfl
  | b :: bs => by
    simp only [List.map_cons, insertSorted, h]
    split
    · simp [insertSorted_map f cmpA cmpB h a bs]
    · simp

theorem jsSort_map {α β : Type} (f : α → β) (cmpA : α → α → JsNum)
    (cmpB : β → β → JsNum) (h : ∀ a b, cmpB (f a) (f b) = cmpA a b) :
    ∀ l : List α, jsSort cmpB (l.map f) = (jsSort cmpA l).map f
  | [] => rfl
  | a :: as => by
    simp only [List.map_cons, jsSort, jsSort_map f cmpA cmpB h as, insertSorted_map f cmpA cmpB h]

theorem isPos_compareItems (a b : Item) :
    (compareItems a b).isPos = true ↔ a.score < b.score := by
  simp [compareItems, JsNum.sub, JsNum.isPos]

theorem insertSorted_descending (a : Item) :
    ∀ l : List Item, Descending l → Descending (insertSorted compareItems a l)
  | [], _ => by simp [insertSorted, Descending]
  | b :: bs, h => by
    have hb := List.pairwise_cons.mp h
    unfold insertSorted
    by_cases hab : a.score < b.score
    · rw [if_pos ((isPos_compareItems a b).mpr hab)]
      refine List.pairwise_cons.mpr ⟨?_, insertSorted_descending a bs hb.2⟩
      intro x hx
      rcases List.mem_cons.mp ((insertSorted_perm compareItems a bs).subset hx) with rfl | hx
      · exact le_of_lt hab
      · exact hb.1 x hx
    · rw [if_neg (fun hp => hab ((isPos_compareItems a b).mp hp))]
      refine List.pairwise_cons.mpr ⟨?_, h⟩
      intro x hx
      rcases List.mem_cons.mp hx with rfl | hx
      · exact not_lt.mp hab
      · exact le_trans (hb.1 x hx) (not_lt.mp hab)

theorem rank_descending : ∀ l : List Item, Descending (rank l)
  | [] => by simp [rank, jsSort, Descending]
  | a :: as => insertSorted_descending a _ (rank_descending as)

theorem insertSorted_of_le (a : Item) (l : List Item) (h : ∀ x ∈ l, x.score ≤ a.score) :
    insertSorted compareItems a l = a :: l := by
  cases l with
  | nil => rfl
  | cons b bs =>
    unfold insertSorted
    rw [if_neg]
    intro hp
    exact absurd ((isPos_compareItems a b).mp hp) (not_lt.mpr (h b (List.mem_cons_self b bs)))

theorem rank_of_descending : ∀ l : List Item, Descending l → rank l = l
  | [], _ => rfl
  | a :: as, h => by
    have ha := List.pairwise_cons.mp h
    show insertSorted compareItems a (rank as) = a :: as
    rw [rank_of_descending as ha.2]
    exact insertSorted_of_le a as ha.1

theorem insertSorted_filter (q : ℚ) (a : Item) :
    ∀ l : List Item, (insertSorted compareItems a l).filter (fun x => decide (x.score = q))
      = (a :: l).filter (fun x => decide (x.score = q))
  | [] => rfl
  | b :: bs => by
    unfold insertSorted
    by_cases hab : a.score < b.score
    · rw [if_pos ((isPos_compareItems a b).mpr hab)]
      rw [List.filter_cons, insertSorted_filter q a bs]
      by_cases hbq : b.score = q
      · have haq : ¬ a.score = q := fun h => by rw [h, hbq] at hab; exact lt_irrefl _ hab
        simp [List.filter_cons, hbq, haq]
      · simp [List.filter_cons, hbq]
    · rw [if_neg (fun hp => hab ((isPos_compareItems a b).mp hp))]

theorem rank_filter (q : ℚ) :
    ∀ l : List Item, (rank l).filter (fun x => decide (x.score = q))
      = l.filter (fun x => decide (x.score = q))
  | [] => rfl
  | a :: as => by
    show (insertSorted compareItems a (rank as)).filter _ = _
    rw [insertSorted_filter, List.filter_cons, List.filter_cons, rank_filter q as]

theorem descending_unique : ∀ xs ys : List Item, Descending xs → Descending ys →
    (∀ q : ℚ, xs.filter (fun x => decide (x.score = q))
      = ys.filter (fun x => decide (x.score = q))) →
    xs = ys
  | [], [], _, _, _ => rfl
  | [], b :: bs, _, _, h => by
    have := h b.score
    simp [List.filter_cons] at this
  | a :: as, [], _, _, h => by
    have := h a.score
    simp [List.filter_cons] at this
  | a :: as, b :: bs, hx, hy, h => by
    have hx' := List.pairwise_cons.mp hx
    have hy' := List.pairwise_cons.mp hy
    have hba : b.score ≤ a.score := by
      have hb : b ∈ (a :: as).filter (fun x => decide (x.score = b.score)) := by
        rw [h b.score]; simp [List.filter_cons]
      have hb' := (List.mem_filter.mp hb).1
      rcases List.mem_cons.mp hb' with rfl | hb'
      · exact le_refl _
      · exact hx'.1 b hb'
    have hab : a.score ≤ b.score := by
      have ha : a ∈ (b :: bs).filter (fun x => decide (x.score = a.score)) := by
        rw [← h a.score]; simp [List.filter_cons]
      have ha' := (List.mem_filter.mp ha).1
      rcases List.mem_cons.mp ha' with rfl | ha'
      · exact le_refl _
      · exact hy'.1 a ha'
    have heq : a.score = b.score := le_antisymm hab hba
    have hhead := h a.score
    simp only [List.filter_cons, decide_True, heq, if_true] at hhead
    have hab' : a = b := (List.cons.inj hhead).1
    subst hab'
    have htail : as = bs := by
      apply descending_unique as bs hx'.2 hy'.2
      intro q
      have hq := h q
      simp only [List.filter_cons] at hq
      split at hq
      · exact (List.cons.inj hq).2
      · exact hq
    rw [htail]

/-! ## The sort under a key -/

theorem insertSorted_pairwise {α K : Type} [LinearOrder K] (cmp : α → α → JsNum) (key : α → K)
    (hcmp : ∀ a b, (cmp a b).isPos = true ↔ key a < key b) (a : α) :
    ∀ l : List α, l.Pairwise (fun x y => key y ≤ key x) →
      (insertSorted cmp a l).Pairwise (fun x y => key y ≤ key x)
  | [], _ => by simp [insertSorted]
  | b :: bs, h => by
    have hb := List.pairwise_cons.mp h
    unfold insertSorted
    by_cases hab : key a < key b
    · rw [if_pos ((hcmp a b).mpr hab)]
      refine List.pairwise_cons.mpr ⟨?_, insertSorted_pairwise cmp key hcmp a bs hb.2⟩
      intro x hx
      rcases List.mem_cons.mp ((insertSorted_perm cmp a bs).subset hx) with rfl | hx
      · exact le_of_lt hab
      · exact hb.1 x hx
    · rw [if_neg (fun hp => hab ((hcmp a b).mp hp))]
      refine List.pairwise_cons.mpr ⟨?_, h⟩
      intro x hx
      rcases List.mem_cons.mp hx with rfl | hx
      · exact not_lt.mp hab
      · exact le_trans (hb.1 x hx) (not_lt.mp hab)

theorem jsSort_pairwise {α K : Type} [LinearOrder K] (cmp : α → α → JsNum) (key : α → K)
    (hcmp : ∀ a b, (cmp a b).isPos = true ↔ key a < key b) :
    ∀ l : List α, (jsSort cmp l).Pairwise (fun x y => key y ≤ key x)
  | [] => by simp [jsSort]
  | a :: as => insertSorted_pairwise cmp key hcmp a _ (jsSort_pairwise cmp key hcmp as)

theorem insertSorted_filter_key {α K : Type} [LinearOrder K] (cmp : α → α → JsNum)
    (key : α → K) (hcmp : ∀ a b, (cmp a b).isPos = true ↔ key a < key b) (k : K) (a : α) :
    ∀ l : List α, (insertSorted cmp a l).filter (fun x => decide (key x = k))
      = (a :: l).filter (fun x => decide (key x = k))
  | [] => rfl
  | b :: bs => by
    unfold insertSorted
    by_cases hab : key a < key b
    · rw [if_pos ((hcmp a b).mpr hab)]
      rw [List.filter_cons, insertSorted_filter_key cmp key hcmp k a bs]
      by_cases hbk : key b = k
      · have hak : ¬ key a = k := fun h => by rw [h, hbk] at hab; exact lt_irrefl _ hab
        simp [List.filter_cons, hbk, hak]
      · simp [List.filter_cons, hbk]
    · rw [if_neg (fun hp => hab ((hcmp a b).mp hp))]

theorem jsSort_filter_key {α K : Type} [LinearOrder K] (cmp : α → α → JsNum)
    (key : α → K) (hcmp : ∀ a b, (cmp a b).isPos = true ↔ key a < key b) (k : K) :
    ∀ l : List α, (jsSort cmp l).filter (fun x => decide (key x = k))
      = l.filter (fun x => decide (key x = k))
  | [] => rfl
  | a :: as => by
    show (insertSorted cmp a (jsSort cmp as)).filter _ = _
    rw [insertSorted_filter_key cmp key hcmp, List.filter_cons, List.filter_cons,
      jsSort_filter_key cmp key hcmp k as]

theorem pairwise_unique {α K : Type} [LinearOrder K] (key : α → K) :
    ∀ xs ys : List α, xs.Pairwise (fun x y => key y ≤ key x) →
      ys.Pairwise (fun x y => key y ≤ key x) →
      (∀ k : K, xs.filter (fun x => decide (key x = k))
        = ys.filter (fun x => decide (key x = k))) →
      xs = ys
  | [], [], _, _, _ => rfl
  | [], b :: bs, _, _, h => by
    have := h (key b)
    simp [List.filter_cons] at this
  | a :: as, [], _, _, h => by
    have := h (key a)
    simp [List.filter_cons] at this
  | a :: as, b :: bs, hx, hy, h => by
    have hx' := List.pairwise_cons.mp hx
    have hy' := List.pairwise_cons.mp hy
    have hba : key b ≤ key a := by
      have hb : b ∈ (a :: as).filter (fun x => decide (key x = key b)) := by
        rw [h (key b)]; simp [List.filter_cons]
      have hb' := (List.mem_filter.mp hb).1
      rcases List.mem_cons.mp hb' with rfl | hb'
      · exact le_refl _
      · exact hx'.1 b hb'
    have hab : key a ≤ key b := by
      have ha : a ∈ (b :: bs).filter (fun x => decide (key x = key a)) := by
        rw [← h (key a)]; simp [List.filter_cons]
      have ha' := (List.mem_filter.mp ha).1
      rcases List.mem_cons.mp ha' with rfl | ha'
      · exact le_refl _
      · exact hy'.1 a ha'
    have heq : key a = key b := le_antisymm hab hba
    have hhead := h (key a)
    simp only [List.filter_cons, decide_True, heq, if_true] at hhead
    have hab' : a = b := (List.cons.inj hhead).1
    subst hab'
    have htail : as = bs := by
      apply pairwise_unique key as bs hx'.2 hy'.2
      intro k
      have hk := h k
      simp only [List.filter_cons] at hk
      split at hk
      · exact (List.cons.inj hk).2
      · exact hk
    rw [htail]

/-! ## Result entries -/

theorem toJsNum_bot : Extended.toJsNum ⊥ = JsNum.ninf := rfl

theorem toJsNum_top : Extended.toJsNum (⊤ : Extended) = JsNum.pinf := rfl

theorem toJsNum_coe (q : ℚ) : Extended.toJsNum ((q : WithTop ℚ) : Extended) = JsNum.val q := rfl

theorem isPos_compareScored (a b : Scored) :
    (compareScored a b).isPos = true ↔ a.score < b.score := by
  obtain ⟨la, sa⟩ := a
  obtain ⟨lb, sb⟩ := b
  simp only [compareScored]
  induction sa using WithBot.recBotCoe with
  | bot =>
    induction sb using WithBot.recBotCoe with
    | bot => simp [toJsNum_bot, JsNum.sub, JsNum.isPos]
    | coe tb =>
      induction tb using WithTop.recTopCoe with
      | top => simp [toJsNum_bot, toJsNum_top, JsNum.sub, JsNum.isPos, WithBot.bot_lt_coe]
      | coe qb => simp [toJsNum_bot, toJsNum_coe, JsNum.sub, JsNum.isPos, WithBot.bot_lt_coe]
  | coe ta =>
    induction ta using WithTop.recTopCoe with
    | top =>
      induction sb using WithBot.recBotCoe with
      | bot => simp [toJsNum_bot, toJsNum_top, JsNum.sub, JsNum.isPos]
      | coe tb =>
        induction tb using WithTop.recTopCoe with
        | top => simp [toJsNum_top, JsNum.sub, JsNum.isPos]
        | coe qb => simp [toJsNum_top, toJsNum_coe, JsNum.sub, JsNum.isPos]
    | coe qa =>
      induction sb using WithBot.recBotCoe with
      | bot => simp [toJsNum_bot, toJsNum_coe, JsNum.sub, JsNum.isPos]
      | coe tb =>
        induction tb using WithTop.recTopCoe with
        | top =>
          simp only [toJsNum_top, toJsNum_coe, JsNum.sub, JsNum.isPos, WithBot.coe_top, true_iff]
          exact WithBot.coe_lt_coe.mpr (WithTop.coe_lt_top qa)
        | coe qb => simp [toJsNum_coe, JsNum.sub, JsNum.isPos]

theorem rankScored_descending (l : List Scored) : DescendingScored (rankScored l) :=
  jsSort_pairwise compareScored Scored.score isPos_compareScored l

theorem rankScored_filter (k : Extended) (l : List Scored) :
    (rankScored l).filter (fun x => decide (x.score = k))
      = l.filter (fun x => decide (x.score = k)) :=
  jsSort_filter_key compareScored Scored.score isPos_compareScored k l

theorem descendingScored_unique (xs ys : List Scored) (hx : DescendingScored xs)
    (hy : DescendingScored ys)
    (h : ∀ k : Extended, xs.filter (fun x => decide (x.score = k))
      = ys.filter (fun x => decide (x.score = k))) : xs = ys :=
  pairwise_unique Scored.score xs ys hx hy h

/-! ## The handler on well-formed items -/

theorem kLabel_ne_kScore : kLabel ≠ kScore := by decide

theorem lookup_setField (key : JsString) (v : Value) :
    ∀ props : List (JsString × Value), lookup key (setField key v props) = some v
  | [] => by simp [setField, lookup]
  | (k, w) :: rest => by
    by_cases h : k = key
    · simp [setField, lookup, h]
    · simp [setField, lookup, h, lookup_setField key v rest]

theorem toPercentage_score (coerce : Value → Option JsNum) (item v : Value)
    (h : toPercentage coerce item = some v) :
    ∃ props n, v = Value.obj props ∧ lookup kScore props = some (Value.num n) := by
  unfold toPercentage at h
  split at h
  · cases h
  · split at h
    · cases h
    · cases h
      exact ⟨_, _, rfl, lookup_setField _ _ _⟩

theorem toPercentage_toValue (coerce : Value → Option JsNum) (it : Item) :
    toPercentage coerce it.toValue = some it.rescale.toValue := by
  simp [toPercentage, Item.toValue, Value.get, lookup, kLabel_ne_kScore, toNumber,
    Value.spread, setField, JsNum.mul, Item.rescale, Scored.toValue]

theorem mapItems_toValue (coerce : Value → Option JsNum) :
    ∀ l : List Item, mapItems (toPercentage coerce) (l.map Item.toValue)
      = some ((l.map Item.rescale).map Scored.toValue)
  | [] => rfl
  | a :: as => by
    simp [mapItems, toPercentage_toValue, mapItems_toValue coerce as]

theorem mapItems_length (f : Value → Option Value) :
    ∀ xs ys : List Value, mapItems f xs = some ys → ys.length = xs.length
  | [], ys, h => by
    cases h
    rfl
  | x :: xs, ys, h => by
    unfold mapItems at h
    split at h
    · cases h
    · cases hm : mapItems f xs with
      | none => rw [hm] at h; cases h
      | some zs =>
        rw [hm] at h
        cases h
        simp [mapItems_length f xs zs hm]

theorem mapItems_null (coerce : Value → Option JsNum) :
    ∀ xs : List Value, Value.null ∈ xs → mapItems (toPercentage coerce) xs = none
  | [], h => by cases h
  | x :: xs, h => by
    unfold mapItems
    rcases List.mem_cons.mp h with hx | hx
    · subst hx
      rfl
    · split
      · rfl
      · rw [mapItems_null coerce xs hx]

theorem toPercentage_array (coerce : Value → Option JsNum) (x : Value)
    (h : x.isArray = true) : ∃ y, toPercentage coerce x = some y := by
  cases x with
  | arr ys => exact ⟨_, rfl⟩
  | _ => cases h

theorem mapItems_arrays (coerce : Value → Option JsNum) :
    ∀ xs : List Value, (∀ x ∈ xs, x.isArray = true) →
      ∃ ys, mapItems (toPercentage coerce) xs = some ys
  | [], _ => ⟨[], rfl⟩
  | x :: xs, h => by
    obtain ⟨y, hy⟩ := toPercentage_array coerce x (h x (List.mem_cons_self x xs))
    obtain ⟨ys, hys⟩ := mapItems_arrays coerce xs (fun z hz => h z (List.mem_cons_of_mem x hz))
    exact ⟨y :: ys, by simp [mapItems, hy, hys]⟩

theorem resultsWithPercentages_not_array (coerce : Value → Option JsNum) (v : Value)
    (h : v.isArray = false) : resultsWithPercentages coerce v = none := by
  cases v <;> first | rfl | cases h

theorem scoreOf_toValue (e : Scored) : scoreOf e.toValue = e.score.toJsNum := by
  simp [scoreOf, Scored.toValue, Value.get, lookup, kLabel_ne_kScore]

theorem compareScore_toValue (a b : Scored) :
    compareScore a.toValue b.toValue = compareScored a b := by
  simp [compareScore, compareScored, scoreOf_toValue]

theorem unwrap_items (l : List Item) :
    unwrap (Value.arr (l.map Item.toValue)) = Value.arr (l.map Item.toValue) := by
  cases l <;> rfl

/-! ## The phases of the handler -/

theorem respond_not_ok (env : Env) (up : Upstream) (hok : up.ok = false) :
    respond env up = errorResponse up := by
  simp [respond, hok]

theorem respond_ok_none (env : Env) (up : Upstream) (hok : up.ok = true)
    (hjson : up.json = none) : respond env up = none := by
  simp [respond, hok, hjson]

theorem respond_ok_some (env : Env) (up : Upstream) (data : Value) (hok : up.ok = true)
    (hjson : up.json = some data) :
    respond env up = (resultsWithPercentages env.coerce (unwrap data)).map
      (fun pct => ⟨200, Body.success (jsSort compareScore pct) model env.now⟩) := by
  simp only [respond, hok, hjson, Bool.not_true, Bool.false_eq_true, if_false]
  cases resultsWithPercentages env.coerce (unwrap data) <;> rfl

theorem respond_items (env : Env) (up : Upstream) (l : List Item) (hok : up.ok = true)
    (hjson : up.json = some (Value.arr (l.map Item.toValue))) :
    respond env up
      = some ⟨200, Body.success ((rankScored (l.map Item.rescale)).map Scored.toValue) model
          env.now⟩ := by
  have hsort := jsSort_map Scored.toValue compareScored compareScore compareScore_toValue
    (l.map Item.rescale)
  simp only [respond, hok, hjson, unwrap_items, resultsWithPercentages, mapItems_toValue,
    rankScored, hsort, Bool.not_true, Bool.false_eq_true, if_false]

theorem validate_accepted (body : Value) (s : JsString)
    (htext : body.get kText = some (Value.str s))
    (hne : s ≠ []) (hlen : s.length ≤ 5000) : validate (some body) = Validation.accepted s := by
  cases body with
  | obj props =>
    simp only [validate, htext, truthyOpt, isStringOpt, Value.truthy, Value.isString]
    have : s.isEmpty = false := by cases s <;> simp_all
    simp [this, Nat.not_lt.mpr hlen]
  | _ => simp [Value.get] at htext

theorem validate_tooLong (body : Value) (s : JsString)
    (htext : body.get kText = some (Value.str s))
    (hlen : 5000 < s.length) : validate (some body) = Validation.rejected tooLong := by
  cases body with
  | obj props =>
    simp only [validate, htext, truthyOpt, isStringOpt, Value.truthy, Value.isString]
    have : s.isEmpty = false := by cases s <;> simp_all
    simp [this, hlen]
  | _ => simp [Value.get] at htext

theorem validate_empty (body : Value) (htext : body.get kText = some (Value.str [])) :
    validate (some body) = Validation.rejected invalidText := by
  cases body with
  | obj props =>
    simp [validate, htext, truthyOpt, isStringOpt, Value.truthy, Value.isString]
  | _ => simp [Value.get] at htext

theorem validate_not_string (body : Value) (hbody : body ≠ Value.null)
    (htext : ∀ s, body.get kText ≠ some (Value.str s)) :
    validate (some body) = Validation.rejected invalidText := by
  have hs : isStringOpt (body.get kText) = false := by
    cases h : body.get kText with
    | none => rfl
    | some v =>
      cases v with
      | str s => exact absurd h (htext s)
      | _ => rfl
  cases body with
  | null => exact absurd rfl hbody
  | _ => simp [validate, hs]

theorem POST_rejected (env : Env) (request : Option Value) (r : Response)
    (hv : validate request = Validation.rejected r) : POST env request = r := by
  simp [POST, tryPOST, hv]

theorem POST_accepted (env : Env) (request : Option Value) (s : JsString) (up : Upstream)
    (hv : validate request = Validation.accepted s)
    (hfetch : env.fetch apiUrl (authorization env.token) (payload s) = some up) :
    POST env request = (respond env up).getD internalError := by
  simp [POST, tryPOST, hv, hfetch]

/-- A payload without a usable `text` is answered with the 400 response for an invalid
text, provided the payload itself is not `null`. -/
theorem invalid_text_rejected (env : Env) (body : Value) (hbody : body ≠ Value.null)
    (htext : ∀ s, body.get kText ≠ some (Value.str s)) :
    POST env (some body)
      = ⟨400, Body.error (utf16 "Text is required and must be a string") none⟩ :=
  POST_rejected env (some body) invalidText (validate_not_string body hbody htext)

/-! ## Objects that carry a label and a score -/

theorem lookup_setField_ne (key other : JsString) (v : Value) (h : other ≠ key) :
    ∀ props : List (JsString × Value), lookup other (setField key v props) = lookup other props
  | [] => by simp [setField, lookup, h.symm]
  | (k, w) :: rest => by
    by_cases hk : k = key
    · subst hk
      simp [setField, lookup, h.symm]
    · by_cases hko : k = other
      · subst hko
        simp [setField, lookup, hk]
      · simp [setField, lookup, hk, hko, lookup_setField_ne key other v h rest]

theorem represents_toValue (it : Item) : Represents it.toValue it :=
  ⟨_, rfl, by simp [lookup], by simp [lookup, kLabel_ne_kScore]⟩

theorem toPercentage_represents (coerce : Value → Option JsNum) (v : Value) (it : Item)
    (h : Represents v it) : ∃ w, toPercentage coerce v = some w ∧ Carries w it.rescale := by
  obtain ⟨props, rfl, hl, hs⟩ := h
  refine ⟨Value.obj (setField kScore
    (Value.num (roundBinary64 (it.score * 100)).toJsNum) props), ?_, _, rfl, ?_, ?_⟩
  · simp [toPercentage, Value.get, hs, toNumber, Value.spread, JsNum.mul]
  · rw [lookup_setField_ne kScore kLabel _ kLabel_ne_kScore]
    exact hl
  · exact lookup_setField _ _ _

theorem mapItems_represents (coerce : Value → Option JsNum) :
    ∀ (xs : List Value) (l : List Item), List.Forall₂ Represents xs l →
      ∃ ys, mapItems (toPercentage coerce) xs = some ys
        ∧ List.Forall₂ Carries ys (l.map Item.rescale)
  | [], [], _ => ⟨[], rfl, List.Forall₂.nil⟩
  | x :: xs, a :: as, h => by
    rw [List.forall₂_cons] at h
    obtain ⟨w, hw, hrw⟩ := toPercentage_represents coerce x a h.1
    obtain ⟨ys, hys, hrys⟩ := mapItems_represents coerce xs as h.2
    exact ⟨w :: ys, by simp [mapItems, hw, hys], List.Forall₂.cons hrw hrys⟩

theorem compareScore_carries (x y : Value) (a b : Scored) (hx : Carries x a)
    (hy : Carries y b) : compareScore x y = compareScored a b := by
  obtain ⟨px, rfl, -, hsx⟩ := hx
  obtain ⟨py, rfl, -, hsy⟩ := hy
  simp [compareScore, compareScored, scoreOf, Value.get, hsx, hsy]

theorem insertSorted_carries (x : Value) (a : Scored) (hx : Carries x a) :
    ∀ (xs : List Value) (l : List Scored), List.Forall₂ Carries xs l →
      List.Forall₂ Carries (insertSorted compareScore x xs) (insertSorted compareScored a l)
  | [], [], _ => List.Forall₂.cons hx List.Forall₂.nil
  | y :: ys, b :: bs, h => by
    have h' := List.forall₂_cons.mp h
    simp only [insertSorted, compareScore_carries x y a b hx h'.1]
    split
    · exact List.Forall₂.cons h'.1 (insertSorted_carries x a hx ys bs h'.2)
    · exact List.Forall₂.cons hx h

theorem jsSort_carries :
    ∀ (xs : List Value) (l : List Scored), List.Forall₂ Carries xs l →
      List.Forall₂ Carries (jsSort compareScore xs) (rankScored l)
  | [], [], _ => List.Forall₂.nil
  | x :: xs, a :: as, h => by
    have h' := List.forall₂_cons.mp h
    exact insertSorted_carries x a h'.1 _ _ (jsSort_carries xs as h'.2)

theorem unwrap_represents (xs : List Value) (l : List Item)
    (h : List.Forall₂ Represents xs l) : unwrap (Value.arr xs) = Value.arr xs := by
  cases h with
  | nil => rfl
  | cons hx _ =>
    obtain ⟨props, rfl, -, -⟩ := hx
    rfl

theorem respond_represents (env : Env) (up : Upstream) (xs : List Value) (l : List Item)
    (hok : up.ok = true) (hrep : List.Forall₂ Represents xs l)
    (hjson : up.json = some (Value.arr xs) ∨ up.json = some (Value.arr [Value.arr xs])) :
    ∃ ys, mapItems (toPercentage env.coerce) xs = some ys
      ∧ respond env up = some ⟨200, Body.success (jsSort compareScore ys) model env.now⟩
      ∧ List.Forall₂ Carries (jsSort compareScore ys) (rankScored (l.map Item.rescale)) := by
  obtain ⟨ys, hys, hrys⟩ := mapItems_represents env.coerce xs l hrep
  refine ⟨ys, hys, ?_, jsSort_carries ys _ hrys⟩
  rcases hjson with hjson | hjson
  · rw [respond_ok_some env up _ hok hjson, unwrap_represents xs l hrep]
    simp [resultsWithPercentages, hys]
  · rw [respond_ok_some env up _ hok hjson]
    simp [unwrap, resultsWithPercentages, hys]

theorem represents_map_toValue :
    ∀ l : List Item, List.Forall₂ Represents (l.map Item.toValue) l
  | [] => List.Forall₂.nil
  | a :: as => List.Forall₂.cons (represents_toValue a) (represents_map_toValue as)

/-! ## Error kinds -/

theorem jsonResponse_accepted (r : Response)
    (h : 200 ≤ r.status ∧ r.status ≤ 599 ∧ r.status ≠ 204 ∧ r.status ≠ 205 ∧ r.status ≠ 304) :
    jsonResponse r = some r := by
  simp only [jsonResponse, if_pos h]

theorem jsonResponse_thrown (r : Response)
    (h : r.status < 200 ∨ 599 < r.status ∨ r.status = 304) : jsonResponse r = none := by
  unfold jsonResponse
  rw [if_neg]
  omega

theorem errorResponse_accepted (r : Upstream)
    (h : 300 ≤ r.status ∧ r.status ≤ 599 ∧ r.status ≠ 304) :
    errorResponse r = some (kindResponse (specKind r.status) r) := by
  unfold errorResponse specKind
  by_cases h1 : r.status = 503
  · simp [h1, kindResponse]
  · by_cases h2 : r.status = 410
    · simp [h2, kindResponse]
    · by_cases h3 : r.status = 401 ∨ r.status = 403
      · simp only [h1, h2, h3, if_true, if_false, kindResponse]
        exact jsonResponse_accepted _
          (by simp only [authenticationFailed]; omega)
      · simp only [h1, h2, h3, if_false, kindResponse]
        exact jsonResponse_accepted _ (by simp only [upstreamError]; omega)

theorem errorResponse_thrown (r : Upstream)
    (h : r.status < 200 ∨ 599 < r.status ∨ r.status = 304) : errorResponse r = none := by
  unfold errorResponse
  have h1 : ¬ r.status = 503 := by omega
  have h2 : ¬ r.status = 410 := by omega
  have h3 : ¬ (r.status = 401 ∨ r.status = 403) := by omega
  simp only [h1, h2, h3, if_false]
  exact jsonResponse_thrown _ (by simp only [upstreamError]; exact h)

theorem apiError_head (n : JsString) (rest : JsString) :
    (utf16 "API error (" ++ n ++ utf16 "): " ++ rest).head? = some 65 := rfl

theorem kindResponse_injective (r : Upstream) (j k : ErrorKind)
    (h : kindResponse j r = kindResponse k r) : j = k := by
  have hLA : utf16 "Model is loading. Please try again in a moment."
      ≠ utf16 "Authentication failed. Please check your Hugging Face API token." := by decide
  have hUhead : (utf16
      "This model is no longer available. Please update the model name in the API route.").head?
      = some 84 := rfl
  have hUE : utf16
      "This model is no longer available. Please update the model name in the API route."
      ≠ utf16 "API error (" ++ natToJsString r.status ++ utf16 "): " ++ r.statusText := by
    intro he
    have := apiError_head (natToJsString r.status) r.statusText
    rw [← he, hUhead] at this
    cases this
  cases j <;> cases k <;> first
    | rfl
    | (exfalso
       simp only [kindResponse, modelLoading, modelUnavailable, authenticationFailed,
         upstreamError, Response.mk.injEq, Body.error.injEq] at h
       first
         | exact hLA h.2.1
         | exact hLA h.2.1.symm
         | exact hUE h.2.1
         | exact hUE h.2.1.symm
         | (have h' := h.2.2; cases h'))

/-! ## Letter case -/

theorem lowerUnit_eq_iff (u c : Nat) (hc : 97 ≤ c ∧ c ≤ 122) :
    lowerUnit u = c ↔ (u = c ∨ u + 32 = c) := by
  unfold lowerUnit
  split <;> omega

theorem toLowerCase_eq_iff (label word : JsString) (hw : ∀ c ∈ word, 97 ≤ c ∧ c ≤ 122) :
    toLowerCase label = word ↔ MatchesIgnoringCase label word := by
  induction label generalizing word with
  | nil =>
    cases word with
    | nil => simp [toLowerCase, MatchesIgnoringCase]
    | cons c cs => simp [toLowerCase, MatchesIgnoringCase]
  | cons u us ih =>
    cases word with
    | nil => simp [toLowerCase, MatchesIgnoringCase]
    | cons c cs =>
      have hc := hw c (List.mem_cons_self c cs)
      have hcs : ∀ d ∈ cs, 97 ≤ d ∧ d ≤ 122 := fun d hd => hw d (List.mem_cons_of_mem c hd)
      have ih' := ih cs hcs
      simp only [toLowerCase, MatchesIgnoringCase, List.map_cons, List.cons.injEq,
        List.forall₂_cons] at ih' ⊢
      rw [lowerUnit_eq_iff u c hc, ih']

theorem negative_letters : ∀ c ∈ utf16 "negative", 97 ≤ c ∧ c ≤ 122 := by decide

theorem positive_letters : ∀ c ∈ utf16 "positive", 97 ≤ c ∧ c ≤ 122 := by decide

/-! ## Sample computations -/

theorem sample_scores_binary64 :
    roundBinary64 (2 / 10)
        = (((3602879701896397 / 18014398509481984 : ℚ) : WithTop ℚ) : Extended)
      ∧ roundBinary64 (7 / 10)
        = (((3152519739159347 / 4503599627370496 : ℚ) : WithTop ℚ) : Extended)
      ∧ roundBinary64 (1 / 2) = (((1 / 2 : ℚ) : WithTop ℚ) : Extended) := by
  decide!

theorem rank_sampleItems :
    rankScored (sampleItems.map Item.rescale)
      = [⟨utf16 "negative", ((70 : ℚ) : WithTop ℚ)⟩, ⟨utf16 "positive", ((20 : ℚ) : WithTop ℚ)⟩] := by
  decide!

theorem binary64_products :
    roundBinary64 (5134103575202365 / 9007199254740992 * 100)
        = (((8022036836253695 / 140737488355328 : ℚ) : WithTop ℚ) : Extended)
      ∧ roundBinary64 (3152519739159347 / 9007199254740992 * 100)
        = (((35 : ℚ) : WithTop ℚ) : Extended)
      ∧ roundBinary64 (6305039478318695 / 18014398509481984 * 100)
        = (((35 : ℚ) : WithTop ℚ) : Extended)
      ∧ roundBinary64 (10 ^ 308 * 100) = ((⊤ : WithTop ℚ) : Extended)
      ∧ roundBinary64 (-(10 ^ 308) * 100) = ⊥ := by
  decide!

theorem rank_tiedItems :
    rankScored (tiedItems.map Item.rescale)
      = [⟨utf16 "a", ((35 : ℚ) : WithTop ℚ)⟩, ⟨utf16 "b", ((35 : ℚ) : WithTop ℚ)⟩] := by
  decide!

theorem rank_neutralItems :
    rankScored (neutralItems.map Item.rescale) = [⟨utf16 "neutral", ((50 : ℚ) : WithTop ℚ)⟩] := by
  decide!

/-! ## The claims -/

/-- C1: when the upstream answers a valid request with a success status and a flat
sequence of objects that carry a label and a score, the handler responds 200 and its
`results` carry, entry by entry, the labels and scores of the ranked rescaled items,
where rescaling multiplies the score by 100 as the `*` operator does, in binary64.
That ranked list is a permutation of the rescaled items, every label is unchanged, no
later entry has a larger score, entries of equal score keep their upstream order, and
it is the only list with the last two properties. -/
theorem results_are_stable_descending_sort (env : Env) (request : Option Value) (s : JsString)
    (up : Upstream) (xs : List Value) (l : List Item)
    (hv : validate request = Validation.accepted s)
    (hfetch : env.fetch apiUrl (authorization env.token) (payload s) = some up)
    (hok : up.ok = true) (hjson : up.json = some (Value.arr xs))
    (hrep : List.Forall₂ Represents xs l) :
    (∃ out, POST env request = ⟨200, Body.success out model env.now⟩
        ∧ List.Forall₂ Carries out (rankScored (l.map Item.rescale)))
      ∧ (rankScored (l.map Item.rescale)).Perm (l.map Item.rescale)
      ∧ DescendingScored (rankScored (l.map Item.rescale))
      ∧ (∀ k : Extended, (rankScored (l.map Item.rescale)).filter (fun x => decide (x.score = k))
          = (l.map Item.rescale).filter (fun x => decide (x.score = k)))
      ∧ (∀ it : Item, it.rescale.label = it.label
          ∧ it.rescale.score = roundBinary64 (it.score * 100)
          ∧ it.rescale.score.toJsNum = (JsNum.val it.score).mul (JsNum.val 100))
      ∧ (∀ other : List Scored, DescendingScored other →
          (∀ k : Extended, other.filter (fun x => decide (x.score = k))
            = (l.map Item.rescale).filter (fun x => decide (x.score = k))) →
          other = rankScored (l.map Item.rescale)) := by
  refine ⟨?_, jsSort_perm _ _, rankScored_descending _, fun k => rankScored_filter k _,
    fun it => ⟨rfl, rfl, rfl⟩, ?_⟩
  · obtain ⟨ys, -, hresp, hout⟩ := respond_represents env up xs l hok hrep (Or.inl hjson)
    refine ⟨_, ?_, hout⟩
    rw [POST_accepted env request s up hv hfetch, hresp]
    rfl
  · intro other hd hf
    exact descendingScored_unique other _ hd (rankScored_descending _)
      (fun k => (hf k).trans (rankScored_filter k _).symm)

/-- C1 at the upstream payload `positive` 0.2, `negative` 0.7: the results are
`negative` 70, `positive` 20. -/
theorem results_sample :
    POST (sampleEnv (sampleUpstream (Value.arr (sampleItems.map Item.toValue)))) sampleRequest
        = ⟨200, Body.success
            ([(⟨utf16 "negative", ((70 : ℚ) : WithTop ℚ)⟩ : Scored),
              ⟨utf16 "positive", ((20 : ℚ) : WithTop ℚ)⟩].map Scored.toValue) model
            (utf16 "2025-01-01T00:00:00.000Z")⟩
      ∧ ∃ out,
        POST (sampleEnv (sampleUpstream (Value.arr (sampleItems.map Item.toValue))))
            sampleRequest
          = ⟨200, Body.success out model (utf16 "2025-01-01T00:00:00.000Z")⟩
        ∧ List.Forall₂ Carries out
            [⟨utf16 "negative", ((70 : ℚ) : WithTop ℚ)⟩,
              ⟨utf16 "positive", ((20 : ℚ) : WithTop ℚ)⟩] := by
  have h := (results_are_stable_descending_sort
    (sampleEnv (sampleUpstream (Value.arr (sampleItems.map Item.toValue)))) sampleRequest
    (utf16 "I hate you") (sampleUpstream (Value.arr (sampleItems.map Item.toValue)))
    (sampleItems.map Item.toValue) sampleItems rfl rfl rfl rfl
    (represents_map_toValue sampleItems)).1
  rw [rank_sampleItems] at h
  refine ⟨?_, h⟩
  rw [POST_accepted _ sampleRequest (utf16 "I hate you")
      (sampleUpstream (Value.arr (sampleItems.map Item.toValue))) rfl rfl,
    respond_items _ (sampleUpstream (Value.arr (sampleItems.map Item.toValue))) sampleItems
      rfl rfl, rank_sampleItems]
  rfl

/-- For a valid request whose upstream call fails with a status from 300 to 599 other
than 304, the response of the handler is the one of the error kind that the
specification assigns to the status, and of no other kind. Status 503 gives the
model-loading response with status 503, 410 the model-unavailable response with status
410 and a `details` field, 401 and 403 the authentication response with the upstream
status, and every other status the upstream-error response with the upstream status and
the raw body text as `details`. -/
theorem status_mapping_accepted (env : Env) (request : Option Value) (s : JsString)
    (up : Upstream)
    (hv : validate request = Validation.accepted s)
    (hfetch : env.fetch apiUrl (authorization env.token) (payload s) = some up)
    (hacc : 300 ≤ up.status ∧ up.status ≤ 599 ∧ up.status ≠ 304) :
    POST env request = kindResponse (specKind up.status) up
      ∧ (∀ kind, POST env request = kindResponse kind up → kind = specKind up.status)
      ∧ (up.status = 503 → POST env request
          = ⟨503, Body.error (utf16 "Model is loading. Please try again in a moment.") none⟩)
      ∧ (up.status = 410 → ∃ details, POST env request
          = ⟨410, Body.error (utf16
              "This model is no longer available. Please update the model name in the API route.")
            (some details)⟩)
      ∧ (up.status = 401 ∨ up.status = 403 → POST env request
          = ⟨up.status, Body.error
              (utf16 "Authentication failed. Please check your Hugging Face API token.") none⟩)
      ∧ (up.status ≠ 503 → up.status ≠ 410 → up.status ≠ 401 → up.status ≠ 403 →
          POST env request
            = ⟨up.status, Body.error
                (utf16 "API error (" ++ natToJsString up.status ++ utf16 "): " ++ up.statusText)
                (some up.text)⟩) := by
  have hok : up.ok = false := by
    simp only [Upstream.ok, Bool.and_eq_false_iff, decide_eq_false_iff_not]
    omega
  have hpost : POST env request = kindResponse (specKind up.status) up := by
    rw [POST_accepted env request s up hv hfetch, respond_not_ok env up hok,
      errorResponse_accepted up hacc]
    rfl
  refine ⟨hpost, ?_, ?_, ?_, ?_, ?_⟩
  · intro kind hk
    exact kindResponse_injective up kind _ (hk.symm.trans hpost)
  · intro h
    rw [hpost, h]
    rfl
  · intro h
    rw [hpost, h]
    exact ⟨_, rfl⟩
  · intro h
    rw [hpost]
    rcases h with h | h
    · simp [specKind, h, kindResponse, authenticationFailed]
    · simp [specKind, h, kindResponse, authenticationFailed]
  · intro h1 h2 h3 h4
    rw [hpost]
    simp [specKind, h1, h2, h3, h4, kindResponse, upstreamError]

/-- For a valid request whose upstream call fails with a status below 200, above 599 or
equal to 304, building the response throws and the handler answers with the generic 500
response. -/
theorem status_not_forwarded (env : Env) (request : Option Value) (s : JsString)
    (up : Upstream)
    (hv : validate request = Validation.accepted s)
    (hfetch : env.fetch apiUrl (authorization env.token) (payload s) = some up)
    (hthrow : up.status < 200 ∨ 599 < up.status ∨ up.status = 304) :
    POST env request = internalError := by
  have hok : up.ok = false := by
    simp only [Upstream.ok, Bool.and_eq_false_iff, decide_eq_false_iff_not]
    omega
  rw [POST_accepted env request s up hv hfetch, respond_not_ok env up hok,
    errorResponse_thrown up hthrow]
  rfl

/-- C2: at the upstream status 304, which is neither 2xx nor one of 503, 410, 401 and
403, the handler does not answer with the upstream-error response that carries the
upstream status and the body text as `details`: building that response throws, and the
answer is the generic 500 response without `details`. The same happens at the upstream
status 600. At status 404 the status and the body text are passed on. -/
theorem not_modified_is_internal_error :
    POST (sampleEnv sampleNotModified) sampleRequest
        = ⟨500, Body.error (utf16 "An unexpected error occurred. Please try again.") none⟩
      ∧ POST (sampleEnv sampleOutOfRange) sampleRequest
        = ⟨500, Body.error (utf16 "An unexpected error occurred. Please try again.") none⟩
      ∧ specKind sampleNotModified.status = ErrorKind.upstreamError
      ∧ POST (sampleEnv sampleNotModified) sampleRequest
        ≠ kindResponse ErrorKind.upstreamError sampleNotModified
      ∧ POST (sampleEnv sampleNotFound) sampleRequest
        = ⟨404, Body.error (utf16 "API error (404): Not Found")
            (some (utf16 "no such model"))⟩ := by
  refine ⟨rfl, rfl, rfl, ?_, rfl⟩
  have h : POST (sampleEnv sampleNotModified) sampleRequest = internalError := rfl
  rw [h]
  intro he
  have hs := congrArg Response.status he
  revert hs
  decide

/-- C3: `getFinalVerdict` is a closed three-way mapping that ignores letter case. The
verdict is `Hate Speech` exactly for the labels that spell `negative` in any mix of
upper and lower case, `No Hate` exactly for those that spell `positive`, and `Neutral`
for every other label; these are the labels whose lower-cased form is `negative` or
`positive`. So `NEGATIVE`, `Negative` and `negative` give `Hate Speech` and `love` gives
`Neutral`. -/
theorem verdict_three_way (label : JsString) :
    (getFinalVerdict label = utf16 "Hate Speech"
        ↔ MatchesIgnoringCase label (utf16 "negative"))
      ∧ (getFinalVerdict label = utf16 "No Hate"
        ↔ MatchesIgnoringCase label (utf16 "positive"))
      ∧ (getFinalVerdict label = utf16 "Neutral"
        ↔ ¬ MatchesIgnoringCase label (utf16 "negative")
          ∧ ¬ MatchesIgnoringCase label (utf16 "positive"))
      ∧ (toLowerCase label = utf16 "negative" ↔ MatchesIgnoringCase label (utf16 "negative"))
      ∧ (toLowerCase label = utf16 "positive" ↔ MatchesIgnoringCase label (utf16 "positive"))
      ∧ getFinalVerdict (utf16 "NEGATIVE") = utf16 "Hate Speech"
      ∧ getFinalVerdict (utf16 "Negative") = utf16 "Hate Speech"
      ∧ getFinalVerdict (utf16 "negative") = utf16 "Hate Speech"
      ∧ getFinalVerdict (utf16 "POSITIVE") = utf16 "No Hate"
      ∧ getFinalVerdict (utf16 "love") = utf16 "Neutral" := by
  have hn := toLowerCase_eq_iff label (utf16 "negative") negative_letters
  have hp := toLowerCase_eq_iff label (utf16 "positive") positive_letters
  have h1 : utf16 "Hate Speech" ≠ utf16 "No Hate" := by decide
  have h2 : utf16 "Hate Speech" ≠ utf16 "Neutral" := by decide
  have h3 : utf16 "No Hate" ≠ utf16 "Neutral" := by decide
  have h4 : utf16 "negative" ≠ utf16 "positive" := by decide
  have hv : getFinalVerdict label
      = if toLowerCase label = utf16 "negative" then utf16 "Hate Speech"
        else if toLowerCase label = utf16 "positive" then utf16 "No Hate"
        else utf16 "Neutral" := rfl
  refine ⟨?_, ?_, ?_, hn, hp, by decide, by decide, by decide, by decide, by decide⟩
  · rw [← hn, hv]
    by_cases a : toLowerCase label = utf16 "negative"
    · rw [if_pos a]; exact ⟨fun _ => a, fun _ => rfl⟩
    · rw [if_neg a]
      by_cases b : toLowerCase label = utf16 "positive"
      · rw [if_pos b]; exact ⟨fun h => absurd h.symm h1, fun h => absurd h a⟩
      · rw [if_neg b]; exact ⟨fun h => absurd h.symm h2, fun h => absurd h a⟩
  · rw [← hp, hv]
    by_cases a : toLowerCase label = utf16 "negative"
    · rw [if_pos a]
      exact ⟨fun h => absurd h h1, fun h => absurd (a.symm.trans h) h4⟩
    · rw [if_neg a]
      by_cases b : toLowerCase label = utf16 "positive"
      · rw [if_pos b]; exact ⟨fun _ => b, fun _ => rfl⟩
      · rw [if_neg b]; exact ⟨fun h => absurd h.symm h3, fun h => absurd h b⟩
  · rw [← hn, ← hp, hv]
    by_cases a : toLowerCase label = utf16 "negative"
    · rw [if_pos a]; exact ⟨fun h => absurd h h2, fun h => absurd a h.1⟩
    · rw [if_neg a]
      by_cases b : toLowerCase label = utf16 "positive"
      · rw [if_pos b]; exact ⟨fun h => absurd h h3, fun h => absurd b h.2⟩
      · rw [if_neg b]; exact ⟨fun _ => ⟨a, b⟩, fun _ => rfl⟩

/-- C4: for a payload whose `text` is a string of more than 5000 code units, validation
rejects it and the handler responds with status 400 and the message
`Text exceeds maximum length of 5000 characters`; for a `text` of exactly 5000 code
units validation accepts it. The length is that of the string as received. -/
theorem length_limit (env : Env) (body : Value) (s : JsString)
    (htext : body.get kText = some (Value.str s)) :
    (5000 < s.length →
        validate (some body) = Validation.rejected tooLong
        ∧ POST env (some body)
          = ⟨400, Body.error (utf16 "Text exceeds maximum length of 5000 characters") none⟩)
      ∧ (s.length = 5000 → validate (some body) = Validation.accepted s) := by
  constructor
  · intro hlen
    have hv := validate_tooLong body s htext hlen
    exact ⟨hv, POST_rejected env (some body) tooLong hv⟩
  · intro hlen
    apply validate_accepted body s htext
    · intro h
      rw [h] at hlen
      simp at hlen
    · exact le_of_eq hlen

/-- C4 at the boundary: a `text` of 5000 spaces is accepted as it is. -/
theorem length_limit_boundary :
    validate (some (Value.obj [(kText, Value.str (List.replicate 5000 32))]))
      = Validation.accepted (List.replicate 5000 32) :=
  (length_limit (sampleEnv (sampleUpstream Value.null))
    (Value.obj [(kText, Value.str (List.replicate 5000 32))]) (List.replicate 5000 32)
    rfl).2 (List.length_replicate 5000 32)

/-- C5: on the request body `null`, which has no `text`, destructuring throws: the
handler does not answer with the 400 response for an invalid text but with the
generic 500 response of the `catch` block. -/
theorem null_body_is_internal_error (env : Env) :
    validate (some Value.null) = Validation.thrown
      ∧ POST env (some Value.null)
        = ⟨500, Body.error (utf16 "An unexpected error occurred. Please try again.") none⟩ :=
  ⟨rfl, rfl⟩

/-- C6, as stated, fails at the empty string: a payload whose `text` is the empty string
is not accepted but rejected with the 400 response for an invalid text. -/
theorem empty_text_rejected :
    validate (some (Value.obj [(kText, Value.str [])])) = Validation.rejected invalidText
      ∧ validate (some (Value.obj [(kText, Value.str [])])) ≠ Validation.accepted []
      ∧ POST (sampleEnv (sampleUpstream Value.null)) (some (Value.obj [(kText, Value.str [])]))
        = ⟨400, Body.error (utf16 "Text is required and must be a string") none⟩ := by
  refine ⟨rfl, ?_, rfl⟩
  have h : validate (some (Value.obj [(kText, Value.str [])]))
      = Validation.rejected invalidText := rfl
  rw [h]
  intro h'
  cases h'

/-- C6, amended: for a payload whose `text` is a non-empty string of at most 5000 code
units, whitespace-only strings included, validation accepts it and the handler calls the
upstream with that very string as `inputs`. The only rejections are the invalid-text
response, which occurs only when `text` is absent, not a string or the empty string, and
the too-long response, which occurs only when `text` is a string longer than 5000. -/
theorem validation_outcomes (env : Env) (body : Value) :
    (∀ s, body.get kText = some (Value.str s) → s ≠ [] → s.length ≤ 5000 →
        validate (some body) = Validation.accepted s
        ∧ tryPOST env (some body)
          = (env.fetch apiUrl (authorization env.token) (payload s)).bind (respond env)
        ∧ (payload s).get (utf16 "inputs") = some (Value.str s))
      ∧ (∀ r, validate (some body) = Validation.rejected r →
          (r = invalidText ∧ ∀ s, body.get kText = some (Value.str s) → s = [])
          ∨ (r = tooLong ∧ ∃ s, body.get kText = some (Value.str s) ∧ 5000 < s.length)) := by
  constructor
  · intro s htext hne hlen
    have hv := validate_accepted body s htext hne hlen
    refine ⟨hv, ?_, ?_⟩
    · simp only [tryPOST, hv]
      cases env.fetch apiUrl (authorization env.token) (payload s) <;> rfl
    · simp [payload, Value.get, lookup]
  · intro r hr
    by_cases hstr : ∃ s, body.get kText = some (Value.str s)
    · obtain ⟨s, hs⟩ := hstr
      by_cases hne : s = []
      · subst hne
        rw [validate_empty body hs] at hr
        left
        refine ⟨(Validation.rejected.inj hr).symm, ?_⟩
        intro s' hs'
        rw [hs] at hs'
        cases hs'
        rfl
      · by_cases hlen : s.length ≤ 5000
        · rw [validate_accepted body s hs hne hlen] at hr
          cases hr
        · rw [validate_tooLong body s hs (Nat.lt_of_not_le hlen)] at hr
          right
          exact ⟨(Validation.rejected.inj hr).symm, s, hs, Nat.lt_of_not_le hlen⟩
    · have hns : ∀ s, body.get kText ≠ some (Value.str s) := fun s h => hstr ⟨s, h⟩
      by_cases hbody : body = Value.null
      · subst hbody
        cases hr
      · rw [validate_not_string body hbody hns] at hr
        left
        exact ⟨(Validation.rejected.inj hr).symm, fun s hs => absurd hs (hns s)⟩

/-- C6, amended, at a `text` of two spaces: it is accepted and forwarded untrimmed. -/
theorem validation_whitespace_sample :
    validate (some (Value.obj [(kText, Value.str [32, 32])])) = Validation.accepted [32, 32]
      ∧ tryPOST (sampleEnv (sampleUpstream Value.null))
          (some (Value.obj [(kText, Value.str [32, 32])]))
        = ((sampleEnv (sampleUpstream Value.null)).fetch apiUrl
            (authorization (sampleEnv (sampleUpstream Value.null)).token)
            (payload [32, 32])).bind (respond (sampleEnv (sampleUpstream Value.null)))
      ∧ (payload [32, 32]).get (utf16 "inputs") = some (Value.str [32, 32]) :=
  (validation_outcomes (sampleEnv (sampleUpstream Value.null))
    (Value.obj [(kText, Value.str [32, 32])])).1 [32, 32] rfl (by simp) (by simp)

/-- C7, as stated, fails at the empty sequence and at deeper nesting: an upstream
success payload `[]` gives a 200 response with an empty `results` list, and a payload
nested three levels deep gives a 200 response as well. -/
theorem empty_payload_succeeds :
    POST (sampleEnv (sampleUpstream (Value.arr []))) sampleRequest
        = ⟨200, Body.success [] model (utf16 "2025-01-01T00:00:00.000Z")⟩
      ∧ (POST (sampleEnv (sampleUpstream
          (Value.arr [Value.arr [Value.arr [Value.obj [(kLabel, Value.str (utf16 "neutral")),
            (kScore, Value.num (JsNum.val 1))]]]]))) sampleRequest).status = 200 :=
  ⟨rfl, rfl⟩

/-- C7, amended: for a valid request answered upstream with a success status, the
handler responds with status 500 and the generic error when the body is not JSON, when
the payload after one level of unwrapping is not a sequence, and when that sequence
holds a `null` entry. An empty sequence is not rejected: it gives a 200 response with an
empty `results` list; nor is deeper nesting: when every entry of the unwrapped sequence
is itself a sequence the response has status 200. Every response that carries `results`
has status 200 and as many results as the unwrapped upstream sequence has entries. -/
theorem malformed_upstream_payloads (env : Env) (request : Option Value) (s : JsString)
    (up : Upstream)
    (hv : validate request = Validation.accepted s)
    (hfetch : env.fetch apiUrl (authorization env.token) (payload s) = some up)
    (hok : up.ok = true) :
    (up.json = none → POST env request = internalError)
      ∧ (∀ data, up.json = some data → (unwrap data).isArray = false →
          POST env request = internalError)
      ∧ (∀ data xs, up.json = some data → unwrap data = Value.arr xs → Value.null ∈ xs →
          POST env request = internalError)
      ∧ (∀ data, up.json = some data → unwrap data = Value.arr [] →
          POST env request = ⟨200, Body.success [] model env.now⟩)
      ∧ (∀ data xs, up.json = some data → unwrap data = Value.arr xs →
          (∀ x ∈ xs, x.isArray = true) → (POST env request).status = 200)
      ∧ (∀ rs m t, (POST env request).body = Body.success rs m t →
          (POST env request).status = 200
          ∧ ∃ data xs, up.json = some data ∧ unwrap data = Value.arr xs
              ∧ rs.length = xs.length)
      ∧ internalError
        = ⟨500, Body.error (utf16 "An unexpected error occurred. Please try again.") none⟩ := by
  have hpost := POST_accepted env request s up hv hfetch
  refine ⟨?_, ?_, ?_, ?_, ?_, ?_, rfl⟩
  · intro hj
    rw [hpost, respond_ok_none env up hok hj]
    rfl
  · intro data hj harr
    rw [hpost, respond_ok_some env up data hok hj,
      resultsWithPercentages_not_array env.coerce _ harr]
    rfl
  · intro data xs hj hu hnull
    rw [hpost, respond_ok_some env up data hok hj, hu]
    simp only [resultsWithPercentages, mapItems_null env.coerce xs hnull]
    rfl
  · intro data hj hu
    rw [hpost, respond_ok_some env up data hok hj, hu]
    rfl
  · intro data xs hj hu hall
    obtain ⟨ys, hys⟩ := mapItems_arrays env.coerce xs hall
    rw [hpost, respond_ok_some env up data hok hj, hu]
    simp only [resultsWithPercentages, hys]
    rfl
  · intro rs m t hbody
    rw [hpost] at hbody ⊢
    cases hj : up.json with
    | none =>
      rw [respond_ok_none env up hok hj] at hbody
      simp [internalError] at hbody
    | some data =>
      rw [respond_ok_some env up data hok hj] at hbody ⊢
      cases hu : unwrap data with
      | arr xs =>
        simp only [hu, resultsWithPercentages] at hbody ⊢
        cases hm : mapItems (toPercentage env.coerce) xs with
        | none =>
          simp [hm, internalError] at hbody
        | some ys =>
          simp only [hm] at hbody ⊢
          simp only [Option.map_some', Option.getD_some, Body.success.injEq] at hbody
          refine ⟨rfl, data, xs, rfl, hu, ?_⟩
          rw [← hbody.1, (jsSort_perm compareScore ys).length_eq]
          exact mapItems_length _ xs ys hm
      | _ =>
        simp [hu, resultsWithPercentages, internalError] at hbody

/-- C7, amended, at an upstream payload that is an object: the response is the generic
500 response. -/
theorem malformed_sample :
    POST (sampleEnv (sampleUpstream (Value.obj []))) sampleRequest
      = ⟨500, Body.error (utf16 "An unexpected error occurred. Please try again.") none⟩ :=
  (malformed_upstream_payloads (sampleEnv (sampleUpstream (Value.obj []))) sampleRequest
    (utf16 "I hate you") (sampleUpstream (Value.obj [])) rfl rfl rfl).2.1 (Value.obj []) rfl rfl

/-- C8: for every flat sequence of objects that carry a label and a score, the response
to the upstream payload that wraps the sequence in one more array is the response to
the flat payload: a 200 response whose `results` carry, entry by entry, the labels and
scores of the ranked rescaled items. -/
theorem nested_unwrapping_transparent (env : Env) (nested flat : Upstream) (xs : List Value)
    (l : List Item) (hrep : List.Forall₂ Represents xs l)
    (hokN : nested.ok = true) (hokF : flat.ok = true)
    (hjsonN : nested.json = some (Value.arr [Value.arr xs]))
    (hjsonF : flat.json = some (Value.arr xs)) :
    respond env nested = respond env flat
      ∧ ∃ out, respond env flat = some ⟨200, Body.success out model env.now⟩
          ∧ List.Forall₂ Carries out (rankScored (l.map Item.rescale)) := by
  obtain ⟨ys, hys, hF, hout⟩ := respond_represents env flat xs l hokF hrep (Or.inl hjsonF)
  obtain ⟨zs, hzs, hN, -⟩ := respond_represents env nested xs l hokN hrep (Or.inr hjsonN)
  rw [hys] at hzs
  cases hzs
  exact ⟨hN.trans hF.symm, _, hF, hout⟩

/-- C8 at the item `neutral` 0.5: the nested and the flat payload both give the results
`neutral` 50. -/
theorem nested_sample :
    respond (sampleEnv (sampleUpstream Value.null))
        (sampleUpstream (Value.arr [Value.arr (neutralItems.map Item.toValue)]))
      = respond (sampleEnv (sampleUpstream Value.null))
        (sampleUpstream (Value.arr (neutralItems.map Item.toValue)))
    ∧ respond (sampleEnv (sampleUpstream Value.null))
        (sampleUpstream (Value.arr (neutralItems.map Item.toValue)))
      = some ⟨200, Body.success
          ([(⟨utf16 "neutral", ((50 : ℚ) : WithTop ℚ)⟩ : Scored)].map Scored.toValue) model
          (utf16 "2025-01-01T00:00:00.000Z")⟩ := by
  refine ⟨(nested_unwrapping_transparent (sampleEnv (sampleUpstream Value.null))
    (sampleUpstream (Value.arr [Value.arr (neutralItems.map Item.toValue)]))
    (sampleUpstream (Value.arr (neutralItems.map Item.toValue)))
    (neutralItems.map Item.toValue) neutralItems (represents_map_toValue neutralItems)
    rfl rfl rfl rfl).1, ?_⟩
  rw [respond_items _ (sampleUpstream (Value.arr (neutralItems.map Item.toValue))) neutralItems
    rfl rfl, rank_neutralItems]
  rfl

/-- C9: for a non-empty result list in rank order, `getTopResult` returns the first
item; its score is at least the score of every item of the list, and among the items
that share its score it is the one that comes first. -/
theorem top_result_is_first (rs : List Item) (hne : rs ≠ []) (hdesc : Descending rs) :
    ∃ top : Item, getTopResult (some rs) = some top
      ∧ rs.head? = some top
      ∧ (∀ x ∈ rs, x.score ≤ top.score)
      ∧ rs.find? (fun x => decide (x.score = top.score)) = some top := by
  cases rs with
  | nil => exact absurd rfl hne
  | cons a as =>
    refine ⟨a, ?_, rfl, ?_, ?_⟩
    · simp [getTopResult, rank_of_descending _ hdesc]
    · intro x hx
      rcases List.mem_cons.mp hx with rfl | hx
      · exact le_refl _
      · exact (List.pairwise_cons.mp hdesc).1 x hx
    · simp [List.find?]

/-- C9 at the ranked results `negative` 70, `positive` 20. -/
theorem top_result_sample :
    ∃ top : Item, getTopResult (some [⟨utf16 "negative", 70⟩, ⟨utf16 "positive", 20⟩]) = some top
      ∧ [(⟨utf16 "negative", 70⟩ : Item), ⟨utf16 "positive", 20⟩].head? = some top
      ∧ (∀ x ∈ [(⟨utf16 "negative", 70⟩ : Item), ⟨utf16 "positive", 20⟩], x.score ≤ top.score)
      ∧ [(⟨utf16 "negative", 70⟩ : Item), ⟨utf16 "positive", 20⟩].find?
          (fun x => decide (x.score = top.score)) = some top :=
  top_result_is_first [⟨utf16 "negative", 70⟩, ⟨utf16 "positive", 20⟩] (by simp)
    (by simp [Descending]; norm_num)

/-- C10: ranking is idempotent: ranking a ranked list returns the same list, and a list
that is already in descending order of score is returned as it is. -/
theorem rank_idempotent (xs : List Item) :
    rank (rank xs) = rank xs ∧ (Descending xs → rank xs = xs) :=
  ⟨rank_of_descending _ (rank_descending xs), rank_of_descending xs⟩

/-- C10 at the ranked results `negative` 70, `positive` 20. -/
theorem rank_idempotent_sample :
    rank [⟨utf16 "negative", 70⟩, ⟨utf16 "positive", 20⟩]
      = [⟨utf16 "negative", 70⟩, ⟨utf16 "positive", 20⟩] :=
  (rank_idempotent [⟨utf16 "negative", 70⟩, ⟨utf16 "positive", 20⟩]).2
    (by simp [Descending]; norm_num)

end HateSpeech
